import Mathlib

/-!
Shallow embedding of makisu's resilient HTTP layer (`lib/utils/httputil`,
provided as `src/unnamed/part_000`) and of the registry auth-transport
factory (`src/lib/registry/security/basicauth.go`), together with proofs
about the behaviour of `Send`, its retry loop, the error classifier and
the Basic/Bearer scheme selection.

Conventions of the embedding:
- Go machine integers that matter here (HTTP status codes, durations in
  milliseconds, lengths) stay well inside their ranges, so they are
  modelled as `Nat`.
- `io.Reader` request/response bodies are modelled as `Option String`
  together with explicit read/close counters, so that "drained and closed
  exactly once" is observable.
- The HTTP client (`http.Client.Do`) is external to the repository; it is
  modelled as an oracle `client : Nat → Except String Response` giving the
  outcome of the i-th physical attempt (`.error msg` models a transport
  failure where Go's `Do` returns a non-nil error and a nil response).
  Executing a request consumes its body, as Go's transport does.
- The stateful backoff generator (`backoff.BackOff.NextBackOff`) is
  modelled as the list of wait durations it will produce before returning
  `backoff.Stop`; `backoff.StopBackOff{}` is the empty list and
  `backoff.WithMaxRetries(b, 3)` a list of length 3.
-/

namespace Makisu

namespace Httputil

/-- A response body: its content, an optional read error (what
`ioutil.ReadAll` would return), and counters of how often it has been
read and closed. -/
structure Body where
  content : String
  readErr : Option String := none
  reads : Nat := 0
  closes : Nat := 0
  deriving DecidableEq

/-- An HTTP response (`*http.Response`), with the request fields that
`NewStatusError` reads back (`resp.Request.Method`, `resp.Request.URL`). -/
structure Response where
  statusCode : Nat
  header : List (String × String)
  reqMethod : String
  reqURL : String
  body : Body
  deriving DecidableEq

/-- Go: `var retryableCodes = map[int]struct{}{429, 502, 503, 504}`. -/
def retryableCodes : List Nat := [429, 502, 503, 504]

/-- Go: `func isRetryable(code int) bool`. -/
def isRetryable (code : Nat) : Bool :=
  retryableCodes.contains code

/-- Go: `type StatusError struct`. -/
structure StatusError where
  Method : String
  URL : String
  Status : Nat
  Header : List (String × String)
  ResponseDump : String
  deriving DecidableEq

/-- Go: `func NewStatusError(resp *http.Response) StatusError`.
Returns the constructed error together with the response body after the
construction's side effects: `ioutil.ReadAll` drains the body once and the
deferred `resp.Body.Close()` closes it once. -/
def NewStatusError (resp : Response) : StatusError × Body :=
  let respDump :=
    match resp.body.readErr with
    | none => resp.body.content
    | some e => "failed to dump response: " ++ e
  ({ Method := resp.reqMethod
     URL := resp.reqURL
     Status := resp.statusCode
     Header := resp.header
     ResponseDump := respDump },
   { content := ""
     readErr := resp.body.readErr
     reads := resp.body.reads + 1
     closes := resp.body.closes + 1 })

/-- The boundedness/truncation property the spec ascribes to the
diagnostic dump: some fixed bound caps the dump's length over all
responses. -/
def dumpBounded : Prop :=
  ∃ B : Nat, ∀ resp : Response, ((NewStatusError resp).1.ResponseDump).length ≤ B

/-- Go error values as this package classifies them: a `StatusError`, a
`NetworkError` (which has no `Unwrap` method, so `errors.As` does not look
inside it), or an error wrapped with `fmt.Errorf("...: %w", err)` by a
caller. -/
inductive GoError where
  | statusError (e : StatusError)
  | networkError (msg : String)
  | wrap (msg : String) (inner : GoError)
  deriving DecidableEq

/-- The behaviour of `errors.As(err, &e)` for target type `StatusError`:
walk the wrap chain and return the first `StatusError` found. -/
def asStatusError : GoError → Option StatusError
  | .statusError e => some e
  | .networkError _ => none
  | .wrap _ inner => asStatusError inner

/-- Go: `func IsStatus(err error, status int) bool`. -/
def IsStatus (err : GoError) (status : Nat) : Bool :=
  match asStatusError err with
  | some e => e.Status == status
  | none => false

/-- Go: `func IsRetryable(err error) bool`. -/
def IsRetryable (err : GoError) : Bool :=
  match asStatusError err with
  | some e => isRetryable e.Status
  | none => false

/-- Go: `func IsNetworkError(err error) bool` (`errors.As` with target
`NetworkError`; `NetworkError` itself has no `Unwrap`). -/
def IsNetworkError : GoError → Bool
  | .statusError _ => false
  | .networkError _ => true
  | .wrap _ inner => IsNetworkError inner

/-- Go: `type retryOptions struct { backoff backoff.BackOff; extraCodes
map[int]bool }`. The backoff generator is the list of durations it will
produce before `backoff.Stop` (in milliseconds). -/
structure retryOptions where
  backoff : List Nat
  extraCodes : List Nat
  deriving DecidableEq

/-- Go: `type sendOptions struct`. The `transport`/`client` overrides are
opaque to the claims and kept as flags; `ctx` is kept as its cancellation
state. -/
structure sendOptions where
  body : Option String
  timeout : Nat
  acceptedCodes : List Nat
  headers : List (String × String)
  retry : retryOptions
  hasTransport : Bool
  ctxCancelled : Bool
  url : String
  urlScheme : String
  httpFallbackDisabled : Bool
  deriving DecidableEq

/-- The functional options accepted by `Send`, one constructor per
`SendOption`-returning function in the source. -/
inductive SendOption where
  | noop
  | sendBody (b : Option String)
  | sendTimeout (t : Nat)
  | sendHeaders (hs : List (String × String))
  | sendAcceptedCodes (codes : List Nat)
  | sendRetry (r : retryOptions)
  | disableHTTPFallback
  | sendTLSTransport
  | sendTransport
  | sendContext (cancelled : Bool)
  deriving DecidableEq

/-- The mutation each `SendOption` closure performs on the shared options
struct. `SendAcceptedCodes(codes...)` replaces the accepted set with the
given codes; `SendTLSTransport` installs the transport and forces the
`https` scheme. -/
def applyOption (o : sendOptions) : SendOption → sendOptions
  | .noop => o
  | .sendBody b => { o with body := b }
  | .sendTimeout t => { o with timeout := t }
  | .sendHeaders hs => { o with headers := hs }
  | .sendAcceptedCodes codes => { o with acceptedCodes := codes }
  | .sendRetry r => { o with retry := r }
  | .disableHTTPFallback => { o with httpFallbackDisabled := true }
  | .sendTLSTransport => { o with hasTransport := true, urlScheme := "https" }
  | .sendTransport => { o with hasTransport := true }
  | .sendContext cancelled => { o with ctxCancelled := cancelled }

/-- The options each `RetryOption` closure mutates. -/
inductive RetryOption where
  | retryBackoff (b : List Nat)
  | retryCodes (codes : List Nat)
  deriving DecidableEq

/-- Go: `RetryBackoff` replaces the generator, `RetryCodes` adds codes to
`extraCodes`. -/
def applyRetryOption (r : retryOptions) : RetryOption → retryOptions
  | .retryBackoff b => { r with backoff := b }
  | .retryCodes codes => { r with extraCodes := r.extraCodes ++ codes }

/-- The generator built by `SendRetry`'s default
`backoff.WithMaxRetries(exponential, 3)`: it yields at most 3 waits of
roughly 250ms (`InitialInterval` 250ms, `Multiplier` 1; the library's
default randomization jitters each value, the retry count 3 is exact). -/
def defaultRetryBackoffMs : List Nat := List.replicate 3 250

/-- Go: `func SendRetry(options ...RetryOption) SendOption`. -/
def SendRetry (options : List RetryOption) : SendOption :=
  .sendRetry (options.foldl applyRetryOption
    { backoff := defaultRetryBackoffMs, extraCodes := [] })

/-- The defaults `Send` starts from before applying the caller's options
(`body=nil, timeout=60s, accepted={200}, StopBackOff, background ctx`). -/
def defaultOptions (rawurl : String) : sendOptions :=
  { body := none
    timeout := 60000
    acceptedCodes := [200]
    headers := []
    retry := { backoff := [], extraCodes := [] }
    hasTransport := false
    ctxCancelled := false
    url := rawurl
    urlScheme := ""
    httpFallbackDisabled := false }

/-- An `*http.Request` as built by `newRequest` and consumed by the
transport. -/
structure Request where
  method : String
  url : String
  contentLength : Nat
  header : List (String × String)
  bodyRemaining : Option String
  ctxCancelled : Bool
  deriving DecidableEq

/-- Executing a request through the transport reads its body; a request
object reused for another attempt no longer carries the supplied body. -/
def consumeBody (req : Request) : Request :=
  { req with bodyRemaining := req.bodyRemaining.map fun _ => "" }

/-- Go: `func newRequest(method string, opts *sendOptions) (*http.Request,
error)`; the request carries the context, and when `opts.body == nil` the
content length is explicitly set to zero. -/
def newRequest (method : String) (opts : sendOptions) : Request :=
  let base : Request :=
    { method := method
      url := opts.url
      contentLength := match opts.body with | none => 0 | some s => s.length
      header := opts.headers
      bodyRemaining := opts.body
      ctxCancelled := opts.ctxCancelled }
  if opts.body.isNone then { base with contentLength := 0 } else base

/-- Go: `func shouldRetry(resp *http.Response, opts *sendOptions) bool`
(`resp == nil` is `none`). -/
def shouldRetry (resp : Option Response) (opts : sendOptions) : Bool :=
  match resp with
  | some r =>
      (isRetryable r.statusCode && !(opts.acceptedCodes.contains r.statusCode))
        || opts.retry.extraCodes.contains r.statusCode
  | none => false

/-- The loop condition `err != nil || shouldRetry(resp, opts)` of `Send`
(on a transport failure `resp` is nil). -/
def attemptFails (res : Except String Response) (opts : sendOptions) : Bool :=
  match res with
  | .error _ => true
  | .ok resp => shouldRetry (some resp) opts

/-- Observable trace of one run of `Send`'s retry loop: the last
attempt's outcome, the number of physical attempts (`client.Do` calls),
how often `NextBackOff` was consulted, the total duration slept by
`time.Sleep`, and the request passed to each attempt. -/
structure LoopResult where
  outcome : Except String Response
  attempts : Nat
  consults : Nat
  slept : Nat
  reqTrace : List Request

/-- The `for { resp, err = client.Do(req); ... }` loop of `Send`. The
request is built once by the caller and the same object is reused on every
iteration (its body having been consumed by the first execution); the
backoff list is the remaining output of the stateful generator, and the
loop breaks when the generator returns `backoff.Stop` (empty list) or the
attempt neither failed nor has a retryable status. `i` numbers the
attempts for the client oracle. -/
def sendLoop (client : Nat → Except String Response) (opts : sendOptions) :
    Request → List Nat → Nat → LoopResult
  | req, [], i =>
    if attemptFails (client i) opts then
      { outcome := client i, attempts := i + 1, consults := 1, slept := 0,
        reqTrace := [req] }
    else
      { outcome := client i, attempts := i + 1, consults := 0, slept := 0,
        reqTrace := [req] }
  | req, d :: rest, i =>
    if attemptFails (client i) opts then
      let r := sendLoop client opts (consumeBody req) rest (i + 1)
      { outcome := r.outcome, attempts := r.attempts, consults := r.consults + 1,
        slept := r.slept + d, reqTrace := req :: r.reqTrace }
    else
      { outcome := client i, attempts := i + 1, consults := 0, slept := 0,
        reqTrace := [req] }

/-- The classified result of `Send`. -/
inductive SendError where
  | networkError (msg : String)
  | statusError (e : StatusError)
  deriving DecidableEq

/-- The `Error()` string of a `StatusError`. -/
def StatusError.errorMsg (e : StatusError) : String :=
  if e.ResponseDump == "" then
    e.Method ++ " " ++ e.URL ++ " " ++ toString e.Status
  else
    e.Method ++ " " ++ e.URL ++ " " ++ toString e.Status ++ ": " ++ e.ResponseDump

/-- The `Error()` string of the error `Send` returns. -/
def SendError.errorMsg : SendError → String
  | .networkError msg => "network error: " ++ msg
  | .statusError e => e.errorMsg

/-- The post-loop classification of `Send`: a transport failure becomes a
`NetworkError`; a response outside the accepted set becomes a
`StatusError` (constructing it closes the body); otherwise the response
is returned as is. -/
def sendFinish (opts : sendOptions) (r : LoopResult) :
    Except SendError Response × LoopResult :=
  match r.outcome with
  | .error e => (.error (.networkError e), r)
  | .ok resp =>
    if opts.acceptedCodes.contains resp.statusCode then (.ok resp, r)
    else (.error (.statusError (NewStatusError resp).1), r)

/-- Go: `func Send(method, rawurl string, options ...SendOption)
(*http.Response, error)`, with the loop trace kept alongside the result.
URL parsing is not modelled (the URL is kept as a string), so the
`parse url` early return does not appear. -/
def SendFull (method rawurl : String) (options : List SendOption)
    (client : Nat → Except String Response) :
    Except SendError Response × LoopResult :=
  sendFinish (options.foldl applyOption (defaultOptions rawurl))
    (sendLoop client (options.foldl applyOption (defaultOptions rawurl))
      (newRequest method (options.foldl applyOption (defaultOptions rawurl)))
      ((options.foldl applyOption (defaultOptions rawurl)).retry.backoff) 0)

/-- The result `Send` hands to its caller. -/
def Send (method rawurl : String) (options : List SendOption)
    (client : Nat → Except String Response) : Except SendError Response :=
  (SendFull method rawurl options client).1

end Httputil

namespace Security

open Httputil

/-- Go: `types.AuthConfig` (the fields this package reads). -/
structure AuthConfig where
  Username : String
  Password : String
  IdentityToken : String
  deriving DecidableEq

/-- Go: `auth.APIVersion` (field names `Type`/`Version` in the source). -/
structure APIVersion where
  ty : String
  version : String
  deriving DecidableEq

/-- Go: `const registryVersionHeader = "Docker-Distribution-Api-Version"`. -/
def registryVersionHeader : String := "Docker-Distribution-Api-Version"

/-- Go: `var v2Version = auth.APIVersion{Type: "registry", Version: "2.0"}`. -/
def v2Version : APIVersion := { ty := "registry", version := "2.0" }

/-- Go: `strings.HasSuffix(s, suffixStr)`, on the characters of the strings. -/
def hasSuffix (s suffixStr : String) : Bool :=
  List.isSuffixOf suffixStr.data s.data

/-- Split a character list at every occurrence of `c` (the pieces between
separators, separators dropped). -/
def splitChar (c : Char) : List Char → List String
  | [] => [""]
  | x :: xs =>
    let rest := splitChar c xs
    if x == c then "" :: rest
    else
      match rest with
      | [] => [String.mk [x]]
      | r :: rs => String.mk (x :: r.data) :: rs

/-- Go: `strings.Fields`, restricted to the space separator: the non-empty
maximal runs between spaces. -/
def fields (s : String) : List String :=
  (splitChar ' ' s.data).filter fun t => !(t == "")

/-- Lower-case every character, as `strings.ToLower` does for ASCII. -/
def toLowerStr (s : String) : String :=
  String.mk (s.data.map Char.toLower)

/-- Break a character list at the first `'/'`: `none` when there is no
slash, otherwise the parts before and after it. -/
def breakSlash : List Char → Option (List Char × List Char)
  | [] => none
  | c :: cs =>
    if c == '/' then some ([], cs)
    else
      match breakSlash cs with
      | none => none
      | some (pre, post) => some (c :: pre, post)

/-- Modelled from the spec: the vendored
`auth.ParseAPIVersion` (docker/distribution, not under `src/`): the text
before the first `/` (lower-cased) is the type, the remainder the
version; with no `/` the type is `"unknown"`. -/
def parseAPIVersion (s : String) : APIVersion :=
  match breakSlash s.data with
  | none => { ty := "unknown", version := s }
  | some (pre, post) => { ty := toLowerStr (String.mk pre), version := String.mk post }

/-- All values of a (repeatable) header key. -/
def headerValues (hs : List (String × String)) (key : String) : List String :=
  (hs.filter fun kv => kv.1 == key).map fun kv => kv.2

/-- Modelled from the spec: the vendored `auth.APIVersions(resp,
versionHeader)` (docker/distribution, not under `src/`): every
space-separated token of every value of the version header, parsed as an
API version; the spec reads it as "the registry's advertised API-version
header (may repeat)". -/
def APIVersions (resp : Response) (versionHeader : String) : List APIVersion :=
  if versionHeader == "" then []
  else (((headerValues resp.header versionHeader).map fields).flatten).map parseAPIVersion

/-- The challenge-tracking state built by the probe: the responses fed to
it. `challenge.NewSimpleManager` starts empty. -/
structure ChallengeManager where
  recorded : List Response
  deriving DecidableEq

/-- Go: `challenge.NewSimpleManager()`. -/
def NewSimpleManager : ChallengeManager := { recorded := [] }

/-- Modelled from the spec: the vendored `cm.AddResponse(resp)`
(docker/distribution, not under `src/`): it extracts the challenge
parameters from the response's headers and may fail on a malformed
challenge header; the parser itself is external, passed as `parse`. -/
def AddResponse (parse : Response → Except String Unit) (cm : ChallengeManager)
    (resp : Response) : Except String ChallengeManager :=
  match parse resp with
  | .error e => .error e
  | .ok _ => .ok { recorded := cm.recorded ++ [resp] }

/-- The options `ping` passes to `httputil.Send`:
`SendTLSTransport(tr)` and `SendAcceptedCodes(200, 401)`. -/
def pingSendOptions : List SendOption :=
  [.sendTLSTransport, .sendAcceptedCodes [200, 401]]

/-- Go: `func ping(addr string, tr http.RoundTripper) (challenge.Manager,
error)`. The network exchange performed by `httputil.Send` is external and
enters as `sendResult`; a `Send` error is propagated, then the advertised
API versions are scanned for `v2Version`, and on a match a fresh challenge
manager records the response (an `AddResponse` failure is wrapped as
`"add response: ..."`); with no match the probe fails with
`"registry is not v2"`. -/
def ping (parse : Response → Except String Unit)
    (sendResult : Except SendError Response) : Except String ChallengeManager :=
  match sendResult with
  | .error e => .error e.errorMsg
  | .ok resp =>
    if v2Version ∈ APIVersions resp registryVersionHeader then
      match AddResponse parse NewSimpleManager resp with
      | .error e => .error ("add response: " ++ e)
      | .ok cm => .ok cm
    else .error "registry is not v2"

/-- Go: `auth.RepositoryScope`. -/
structure RepositoryScope where
  Repository : String
  Actions : List String
  deriving DecidableEq

/-- Go: `auth.TokenHandlerOptions` (the fields this package sets; the
transport itself is opaque). -/
structure TokenHandlerOptions where
  Credentials : AuthConfig
  Scopes : List RepositoryScope
  ClientID : String
  ForceOAuth : Bool
  deriving DecidableEq

/-- The auth handler wired by the factory: `auth.NewBasicHandler` over the
credential store, or `auth.NewTokenHandlerWithOptions`. -/
inductive AuthHandler where
  | basicHandler (creds : AuthConfig)
  | tokenHandler (opts : TokenHandlerOptions)
  deriving DecidableEq

/-- The decorated transport returned by the factory: the challenge state
fed to `auth.NewAuthorizer` and the chosen handler (the wrapped base
transport is opaque). -/
structure DecoratedTransport where
  challenges : ChallengeManager
  handler : AuthHandler
  deriving DecidableEq

/-- Go: `func BasicAuthTransport(addr, repo string, tr http.RoundTripper,
authConfig types.AuthConfig) (http.RoundTripper, error)`. The probe's
outcome (`ping(addr, tr)`, a network interaction) enters as `pingResult`;
its error is wrapped with `"ping v2 registry: "`. With non-empty username
and password and an address suffixed `amazonaws.com` the factory selects
Basic auth, otherwise a token handler scoped to `repo` with actions
`pull, push`, client id `"docker"` and `ForceOAuth: false`. -/
def BasicAuthTransport (addr repo : String)
    (pingResult : Except String ChallengeManager) (authConfig : AuthConfig) :
    Except String DecoratedTransport :=
  match pingResult with
  | .error e => .error ("ping v2 registry: " ++ e)
  | .ok cm =>
    if authConfig.Username != "" && authConfig.Password != ""
        && hasSuffix addr "amazonaws.com" then
      .ok { challenges := cm, handler := .basicHandler authConfig }
    else
      .ok { challenges := cm
            handler := .tokenHandler
              { Credentials := authConfig
                Scopes := [{ Repository := repo, Actions := ["pull", "push"] }]
                ClientID := "docker"
                ForceOAuth := false } }

/-- Go: `defaultCredStore.Basic` returns the configured username and
password. -/
def credStoreBasic (config : AuthConfig) : String × String :=
  (config.Username, config.Password)

/-- Go: `defaultCredStore.RefreshToken` returns the configured identity
token. -/
def credStoreRefreshToken (config : AuthConfig) : String :=
  config.IdentityToken

end Security

end Makisu

namespace Makisu

namespace Httputil

/-- The function `sendFinish` only classifies the loop's result; the trace itself is
passed through unchanged. -/
theorem sendFinish_snd (opts : sendOptions) (r : LoopResult) :
    (sendFinish opts r).2 = r := by
  unfold sendFinish
  cases h : r.outcome with
  | error e => rfl
  | ok resp =>
    dsimp only
    split <;> rfl

/-- How `sendFinish` classifies a loop that ended with a response. -/
theorem sendFinish_ok_iff (opts : sendOptions) (r : LoopResult) (resp : Response)
    (h : r.outcome = .ok resp) :
    ((sendFinish opts r).1 = .ok resp ↔
      opts.acceptedCodes.contains resp.statusCode = true) ∧
    (opts.acceptedCodes.contains resp.statusCode = false →
      (sendFinish opts r).1 = .error (.statusError (NewStatusError resp).1)) := by
  unfold sendFinish
  rw [h]
  cases hc : opts.acceptedCodes.contains resp.statusCode with
  | true =>
    have hm : resp.statusCode ∈ opts.acceptedCodes := List.elem_iff.mp hc
    simp [hc, hm]
  | false =>
    have hm : resp.statusCode ∉ opts.acceptedCodes := fun hmem => by
      have hc' : opts.acceptedCodes.contains resp.statusCode = true :=
        List.elem_iff.mpr hmem
      rw [hc'] at hc
      exact Bool.true_eq_false.mp hc
    simp [hc, hm]

/-- The retry loop makes between `i + 1` and `i + backoff.length + 1`
physical attempts when entered at attempt index `i`. -/
theorem sendLoop_attempts (client : Nat → Except String Response)
    (opts : sendOptions) (backoff : List Nat) (req : Request) (i : Nat) :
    i + 1 ≤ (sendLoop client opts req backoff i).attempts ∧
    (sendLoop client opts req backoff i).attempts ≤ i + backoff.length + 1 := by
  induction backoff generalizing req i with
  | nil =>
    unfold sendLoop
    split <;> simp
  | cons d rest ih =>
    unfold sendLoop
    split
    · have h := ih (consumeBody req) (i + 1)
      dsimp only
      simp only [List.length_cons]
      omega
    · simp

/-- With an exhausted generator (`StopBackOff`) the loop makes exactly one
attempt. -/
theorem sendLoop_attempts_nil (client : Nat → Except String Response)
    (opts : sendOptions) (req : Request) (i : Nat) :
    (sendLoop client opts req [] i).attempts = i + 1 := by
  unfold sendLoop
  split <;> rfl

/-- Claim C1: for every accepted-code set configured on a `Send` call and
every run whose final attempt produced a response with status `s` (no
transport failure on the final attempt), `Send` returns the response
successfully iff `s` is in the accepted set, and otherwise returns a
`StatusError` whose `Status` field equals `s`. -/
theorem C1_send_classifies_final_status
    (method rawurl : String) (options : List SendOption)
    (client : Nat → Except String Response) (resp : Response)
    (hfin : (SendFull method rawurl options client).2.outcome = .ok resp) :
    (Send method rawurl options client = .ok resp ↔
      (options.foldl applyOption (defaultOptions rawurl)).acceptedCodes.contains
        resp.statusCode = true) ∧
    ((options.foldl applyOption (defaultOptions rawurl)).acceptedCodes.contains
        resp.statusCode = false →
      Send method rawurl options client =
        .error (.statusError (NewStatusError resp).1) ∧
      (NewStatusError resp).1.Status = resp.statusCode) := by
  unfold SendFull at hfin
  rw [sendFinish_snd] at hfin
  unfold Send SendFull
  refine ⟨(sendFinish_ok_iff _ _ _ hfin).1, fun hc => ⟨(sendFinish_ok_iff _ _ _ hfin).2 hc, rfl⟩⟩

/-- Witness for C1: a single accepted 200 response is returned to the
caller as success. -/
theorem C1_send_classifies_final_status_witness :
    Send "GET" "http://example.com" []
      (fun _ => .ok { statusCode := 200, header := [], reqMethod := "GET",
                      reqURL := "http://example.com", body := { content := "ok" } }) =
      .ok { statusCode := 200, header := [], reqMethod := "GET",
            reqURL := "http://example.com", body := { content := "ok" } } := by
  have h := C1_send_classifies_final_status "GET" "http://example.com" []
    (fun _ => .ok { statusCode := 200, header := [], reqMethod := "GET",
                    reqURL := "http://example.com", body := { content := "ok" } })
    { statusCode := 200, header := [], reqMethod := "GET",
      reqURL := "http://example.com", body := { content := "ok" } }
    rfl
  exact h.1.mpr rfl

/-- The predicate `shouldRetry` on a response, phrased through list membership. -/
theorem shouldRetry_iff_mem (resp : Response) (opts : sendOptions) :
    shouldRetry (some resp) opts = true ↔
      ((resp.statusCode ∈ retryableCodes ∧ resp.statusCode ∉ opts.acceptedCodes) ∨
        resp.statusCode ∈ opts.retry.extraCodes) := by
  simp [shouldRetry, isRetryable, List.elem_iff]

/-- Counterexample to claim C2 as stated: with accepted codes `{418}` and
caller-supplied extra retry codes `{418}`, a 418 response is in the
accepted set, yet the loop consults the backoff generator (twice here,
with a one-element generator) before finally returning the response
successfully. -/
theorem C2_accepted_status_retried_counterexample :
    ((([SendOption.sendAcceptedCodes [418],
        SendRetry [RetryOption.retryBackoff [0], RetryOption.retryCodes [418]]]).foldl
          applyOption (defaultOptions "u")).acceptedCodes.contains 418 = true) ∧
    (SendFull "GET" "u"
      [SendOption.sendAcceptedCodes [418],
       SendRetry [RetryOption.retryBackoff [0], RetryOption.retryCodes [418]]]
      (fun _ => .ok { statusCode := 418, header := [], reqMethod := "GET",
                      reqURL := "u", body := { content := "" } })).2.consults = 2 ∧
    (SendFull "GET" "u"
      [SendOption.sendAcceptedCodes [418],
       SendRetry [RetryOption.retryBackoff [0], RetryOption.retryCodes [418]]]
      (fun _ => .ok { statusCode := 418, header := [], reqMethod := "GET",
                      reqURL := "u", body := { content := "" } })).2.attempts = 2 ∧
    Send "GET" "u"
      [SendOption.sendAcceptedCodes [418],
       SendRetry [RetryOption.retryBackoff [0], RetryOption.retryCodes [418]]]
      (fun _ => .ok { statusCode := 418, header := [], reqMethod := "GET",
                      reqURL := "u", body := { content := "" } }) =
      .ok { statusCode := 418, header := [], reqMethod := "GET",
            reqURL := "u", body := { content := "" } } :=
  ⟨rfl, rfl, rfl, rfl⟩

/-- Claim C2 (amended): when an attempt yields a response, the loop
consults the backoff generator for a retry iff the status is in the fixed
retryable set `{429, 502, 503, 504}` and not in the accepted set, or is
among the caller-supplied extra codes — the extra codes trigger a retry
even for an accepted status. -/
theorem C2_backoff_consulted_iff
    (client : Nat → Except String Response) (opts : sendOptions) (req : Request)
    (backoff : List Nat) (i : Nat) (resp : Response)
    (h : client i = .ok resp) :
    1 ≤ (sendLoop client opts req backoff i).consults ↔
      ((resp.statusCode ∈ retryableCodes ∧ resp.statusCode ∉ opts.acceptedCodes) ∨
        resp.statusCode ∈ opts.retry.extraCodes) := by
  rw [← shouldRetry_iff_mem]
  have hfail : attemptFails (client i) opts = shouldRetry (some resp) opts := by
    rw [h]
    rfl
  cases backoff with
  | nil =>
    unfold sendLoop
    rw [hfail]
    cases hb : shouldRetry (some resp) opts <;> simp [hb]
  | cons d rest =>
    unfold sendLoop
    rw [hfail]
    cases hb : shouldRetry (some resp) opts <;> simp [hb]

/-- Witness for C2 (amended): an unaccepted 503 makes the loop consult
the generator. -/
theorem C2_backoff_consulted_iff_witness :
    1 ≤ (sendLoop
      (fun _ => .ok { statusCode := 503, header := [], reqMethod := "GET",
                      reqURL := "u", body := { content := "" } })
      (defaultOptions "u") (newRequest "GET" (defaultOptions "u")) [] 0).consults := by
  have h := C2_backoff_consulted_iff
    (fun _ => .ok { statusCode := 503, header := [], reqMethod := "GET",
                    reqURL := "u", body := { content := "" } })
    (defaultOptions "u") (newRequest "GET" (defaultOptions "u")) [] 0
    { statusCode := 503, header := [], reqMethod := "GET",
      reqURL := "u", body := { content := "" } }
    rfl
  exact h.mpr (by decide)

/-- Claim C3: a `Send` call whose merged options allow at most `n` waits
from the backoff generator makes at most `n + 1` physical attempts; when
the generator is the default `StopBackOff` (or any generator that
immediately signals stop) it makes exactly one attempt, whatever the
response status; and the default retry policy is exactly that
`StopBackOff`. -/
theorem C3_attempts_bounded
    (method rawurl : String) (options : List SendOption)
    (client : Nat → Except String Response) (n : Nat)
    (hn : ((options.foldl applyOption (defaultOptions rawurl)).retry.backoff).length ≤ n) :
    (SendFull method rawurl options client).2.attempts ≤ n + 1 ∧
    (((options.foldl applyOption (defaultOptions rawurl)).retry.backoff) = [] →
      (SendFull method rawurl options client).2.attempts = 1) ∧
    (defaultOptions rawurl).retry.backoff = [] := by
  refine ⟨?_, ?_, rfl⟩
  · unfold SendFull
    rw [sendFinish_snd]
    have h := (sendLoop_attempts client (options.foldl applyOption (defaultOptions rawurl))
      ((options.foldl applyOption (defaultOptions rawurl)).retry.backoff)
      (newRequest method (options.foldl applyOption (defaultOptions rawurl))) 0).2
    omega
  · intro hb
    unfold SendFull
    rw [sendFinish_snd, hb]
    exact sendLoop_attempts_nil _ _ _ 0

/-- Witness for C3: with no options (hence the default no-retry policy)
and a 503-returning transport, exactly one attempt happens. -/
theorem C3_attempts_bounded_witness :
    (SendFull "GET" "u" []
      (fun _ => .ok { statusCode := 503, header := [], reqMethod := "GET",
                      reqURL := "u", body := { content := "" } })).2.attempts ≤ 1 ∧
    (SendFull "GET" "u" []
      (fun _ => .ok { statusCode := 503, header := [], reqMethod := "GET",
                      reqURL := "u", body := { content := "" } })).2.attempts = 1 := by
  have h := C3_attempts_bounded "GET" "u" []
    (fun _ => .ok { statusCode := 503, header := [], reqMethod := "GET",
                    reqURL := "u", body := { content := "" } })
    0 (by decide)
  exact ⟨h.1, h.2.1 rfl⟩

/-- Counterexample to claim C6 as stated: the diagnostic dump is not
truncated to any bound — `NewStatusError` records the entire body, so for
every proposed bound `B` a body of length `B + 1` yields a dump of length
`B + 1`. -/
theorem C6_dump_not_bounded_counterexample : ¬ dumpBounded := by
  rintro ⟨B, hB⟩
  have h := hB { statusCode := 200, header := [], reqMethod := "GET", reqURL := "u",
                 body := { content := String.mk (List.replicate (B + 1) 'a') } }
  have hlen : ((NewStatusError
      { statusCode := 200, header := [], reqMethod := "GET", reqURL := "u",
        body := { content := String.mk (List.replicate (B + 1) 'a') } }).1.ResponseDump).length
      = B + 1 := by
    simp [NewStatusError, String.length]
  omega

/-- Claim C6 (amended): constructing a `StatusError` records the request
method, URL, received status and response headers; the diagnostic dump is
the entire response body verbatim (no truncation) when reading succeeds;
construction drains and closes the body exactly once; and the success
path of `Send` hands the response back without constructing a
`StatusError` or touching the body. -/
theorem C6_status_error_records_and_closes_once
    (resp : Response) (hread : resp.body.readErr = none) :
    (NewStatusError resp).1.Method = resp.reqMethod ∧
    (NewStatusError resp).1.URL = resp.reqURL ∧
    (NewStatusError resp).1.Status = resp.statusCode ∧
    (NewStatusError resp).1.Header = resp.header ∧
    (NewStatusError resp).1.ResponseDump = resp.body.content ∧
    (NewStatusError resp).2.reads = resp.body.reads + 1 ∧
    (NewStatusError resp).2.closes = resp.body.closes + 1 ∧
    (∀ (opts : sendOptions) (r : LoopResult), r.outcome = .ok resp →
      opts.acceptedCodes.contains resp.statusCode = true →
      (sendFinish opts r).1 = .ok resp) := by
  refine ⟨rfl, rfl, rfl, rfl, ?_, rfl, rfl, ?_⟩
  · simp [NewStatusError, hread]
  · intro opts r hr hacc
    exact (sendFinish_ok_iff opts r resp hr).1.mpr hacc

/-- Witness for C6 (amended): a concrete unaccepted response's body is
recorded verbatim and closed once. -/
theorem C6_status_error_witness :
    (NewStatusError
      { statusCode := 500, header := [("Content-Type", "text/plain")],
        reqMethod := "PUT", reqURL := "https://r.example.com/v2/x",
        body := { content := "server error detail" } }).1.ResponseDump
      = "server error detail" ∧
    (NewStatusError
      { statusCode := 500, header := [("Content-Type", "text/plain")],
        reqMethod := "PUT", reqURL := "https://r.example.com/v2/x",
        body := { content := "server error detail" } }).2.closes = 1 := by
  have h := C6_status_error_records_and_closes_once
    { statusCode := 500, header := [("Content-Type", "text/plain")],
      reqMethod := "PUT", reqURL := "https://r.example.com/v2/x",
      body := { content := "server error detail" } } rfl
  exact ⟨h.2.2.2.2.1, h.2.2.2.2.2.2.1⟩

/-- Counterexample to claim C7 as stated: the variadic
`SendAcceptedCodes()` applied with zero codes installs an empty accepted
set, so after applying the mutators the set can be empty. -/
theorem C7_empty_accepted_codes_counterexample :
    (([SendOption.sendAcceptedCodes []]).foldl applyOption
      (defaultOptions "http://example.com")).acceptedCodes = [] := rfl

/-- Every option mutator leaves the accepted set unchanged except
`SendAcceptedCodes`, which replaces it with the codes it was given. -/
theorem applyOption_acceptedCodes (o : sendOptions) (opt : SendOption) :
    (applyOption o opt).acceptedCodes = o.acceptedCodes ∨
      ∃ cs, opt = .sendAcceptedCodes cs ∧ (applyOption o opt).acceptedCodes = cs := by
  cases opt with
  | sendAcceptedCodes cs => exact Or.inr ⟨cs, rfl, rfl⟩
  | noop => exact Or.inl rfl
  | sendBody b => exact Or.inl rfl
  | sendTimeout t => exact Or.inl rfl
  | sendHeaders hs => exact Or.inl rfl
  | sendRetry r => exact Or.inl rfl
  | disableHTTPFallback => exact Or.inl rfl
  | sendTLSTransport => exact Or.inl rfl
  | sendTransport => exact Or.inl rfl
  | sendContext c => exact Or.inl rfl

/-- Folding the option mutators keeps the accepted set non-empty as long
as the start set is non-empty and no empty `SendAcceptedCodes` list is
applied. -/
theorem foldl_acceptedCodes_ne_nil (options : List SendOption) (o : sendOptions)
    (ho : o.acceptedCodes ≠ [])
    (h : ∀ cs, SendOption.sendAcceptedCodes cs ∈ options → cs ≠ []) :
    (options.foldl applyOption o).acceptedCodes ≠ [] := by
  induction options generalizing o with
  | nil => exact ho
  | cons head tail ih =>
    rw [List.foldl_cons]
    refine ih (applyOption o head) ?_ (fun cs hcs => h cs (List.mem_cons_of_mem _ hcs))
    rcases applyOption_acceptedCodes o head with hsame | ⟨cs, hhead, hval⟩
    · rw [hsame]; exact ho
    · rw [hval]
      exact h cs (by rw [← hhead]; exact List.mem_cons_self _ _)

/-- Claim C7 (amended): the default accepted set is exactly `{200}`, and
after all option mutators are applied the accepted set is non-empty
provided no `SendAcceptedCodes` mutator with an empty code list was
supplied (the zero-argument variadic call being the one way to empty
it). -/
theorem C7_accepted_codes_default_nonempty (rawurl : String)
    (options : List SendOption)
    (h : ∀ cs, SendOption.sendAcceptedCodes cs ∈ options → cs ≠ []) :
    (defaultOptions rawurl).acceptedCodes = [200] ∧
    (options.foldl applyOption (defaultOptions rawurl)).acceptedCodes ≠ [] :=
  ⟨rfl, foldl_acceptedCodes_ne_nil options _ (by simp [defaultOptions]) h⟩

/-- Witness for C7 (amended): a non-empty accepted-codes option keeps the
merged set non-empty. -/
theorem C7_accepted_codes_witness :
    (defaultOptions "u").acceptedCodes = [200] ∧
    (([SendOption.sendAcceptedCodes [201, 204]]).foldl applyOption
      (defaultOptions "u")).acceptedCodes ≠ [] := by
  refine C7_accepted_codes_default_nonempty "u" [SendOption.sendAcceptedCodes [201, 204]] ?_
  intro cs hcs
  simp only [List.mem_singleton, SendOption.sendAcceptedCodes.injEq] at hcs
  subst hcs
  decide

/-- Consuming a request body twice is the same as consuming it once. -/
theorem consumeBody_idem (req : Request) :
    consumeBody (consumeBody req) = consumeBody req := by
  cases hb : req.bodyRemaining <;> simp [consumeBody, hb]

/-- Consuming a request that carries no body changes nothing. -/
theorem consumeBody_of_none (req : Request) (h : req.bodyRemaining = none) :
    consumeBody req = req := by
  cases req
  simp_all [consumeBody]

/-- Every request the loop hands to the transport is the entry request or
that request with its body consumed. -/
theorem sendLoop_reqTrace (client : Nat → Except String Response) (opts : sendOptions)
    (backoff : List Nat) (req : Request) (i : Nat) :
    ∀ r ∈ (sendLoop client opts req backoff i).reqTrace,
      r = req ∨ r = consumeBody req := by
  induction backoff generalizing req i with
  | nil =>
    unfold sendLoop
    split
    · intro r hr
      rw [List.mem_singleton] at hr
      exact Or.inl hr
    · intro r hr
      rw [List.mem_singleton] at hr
      exact Or.inl hr
  | cons d rest ih =>
    unfold sendLoop
    split
    · dsimp only
      intro r hr
      rcases List.mem_cons.mp hr with hhead | htail
      · exact Or.inl hhead
      · rcases ih (consumeBody req) (i + 1) r htail with h1 | h2
        · exact Or.inr h1
        · rw [consumeBody_idem] at h2
          exact Or.inr h2
    · intro r hr
      rw [List.mem_singleton] at hr
      exact Or.inl hr

/-- Counterexample to claim C8 as stated: with a supplied body and one
allowed retry against a failing transport, the second attempt's request
is not a fresh request built from the options — it is the first attempt's
request object, whose body has already been consumed. -/
theorem C8_reused_request_counterexample :
    ¬ (∀ r ∈ (SendFull "POST" "u"
          [SendOption.sendBody (some "payload"),
           SendRetry [RetryOption.retryBackoff [0]]]
          (fun _ => .error "boom")).2.reqTrace,
        r = newRequest "POST"
          (([SendOption.sendBody (some "payload"),
             SendRetry [RetryOption.retryBackoff [0]]]).foldl applyOption
            (defaultOptions "u"))) := by
  decide

/-- Claim C8 (amended): `Send` builds the request once from the merged
options before the loop and every attempt, retries included, reuses that
same request object — later attempts carry its already-consumed body
rather than a fresh copy; when no body was supplied, the built request's
content length is explicitly zero and all attempts' requests coincide
with the built one. -/
theorem C8_request_built_once
    (method rawurl : String) (options : List SendOption)
    (client : Nat → Except String Response) :
    (∀ r ∈ (SendFull method rawurl options client).2.reqTrace,
      r = newRequest method (options.foldl applyOption (defaultOptions rawurl)) ∨
      r = consumeBody
            (newRequest method (options.foldl applyOption (defaultOptions rawurl)))) ∧
    ((options.foldl applyOption (defaultOptions rawurl)).body = none →
      (newRequest method
          (options.foldl applyOption (defaultOptions rawurl))).contentLength = 0 ∧
      ∀ r ∈ (SendFull method rawurl options client).2.reqTrace,
        r = newRequest method (options.foldl applyOption (defaultOptions rawurl))) := by
  have htrace : ∀ r ∈ (SendFull method rawurl options client).2.reqTrace,
      r = newRequest method (options.foldl applyOption (defaultOptions rawurl)) ∨
      r = consumeBody
            (newRequest method (options.foldl applyOption (defaultOptions rawurl))) := by
    unfold SendFull
    rw [sendFinish_snd]
    exact sendLoop_reqTrace client _ _ _ 0
  refine ⟨htrace, fun hbody => ⟨?_, ?_⟩⟩
  · unfold newRequest
    rw [hbody]
    rfl
  · have hnone : (newRequest method
        (options.foldl applyOption (defaultOptions rawurl))).bodyRemaining = none := by
      unfold newRequest
      rw [hbody]
      rfl
    have hcons : consumeBody
        (newRequest method (options.foldl applyOption (defaultOptions rawurl))) =
        newRequest method (options.foldl applyOption (defaultOptions rawurl)) :=
      consumeBody_of_none _ hnone
    intro r hr
    rcases htrace r hr with h1 | h2
    · exact h1
    · rw [hcons] at h2
      exact h2

/-- Witness for C8 (amended): with no body supplied, the built request
has content length zero and a retried run reuses it unchanged. -/
theorem C8_request_built_once_witness :
    (newRequest "GET"
      (([] : List SendOption).foldl applyOption (defaultOptions "u"))).contentLength = 0 ∧
    ∀ r ∈ (SendFull "GET" "u" []
        (fun _ => .ok { statusCode := 200, header := [], reqMethod := "GET",
                        reqURL := "u", body := { content := "" } })).2.reqTrace,
      r = newRequest "GET" (([] : List SendOption).foldl applyOption (defaultOptions "u")) :=
  (C8_request_built_once "GET" "u" []
    (fun _ => .ok { statusCode := 200, header := [], reqMethod := "GET",
                    reqURL := "u", body := { content := "" } })).2 rfl

/-- Counterexample to claim C9 as stated: with an already-cancelled
context every attempt fails at the transport level, yet a generator with
two remaining waits makes the loop perform two further attempts and sleep
the full 500ms of backoff (`time.Sleep` is not context-aware) before the
network failure is surfaced. -/
theorem C9_cancelled_context_keeps_looping_counterexample :
    (SendFull "GET" "u"
      [SendOption.sendContext true, SendRetry [RetryOption.retryBackoff [250, 250]]]
      (fun _ => .error "context canceled")).2.attempts = 3 ∧
    (SendFull "GET" "u"
      [SendOption.sendContext true, SendRetry [RetryOption.retryBackoff [250, 250]]]
      (fun _ => .error "context canceled")).2.slept = 500 ∧
    Send "GET" "u"
      [SendOption.sendContext true, SendRetry [RetryOption.retryBackoff [250, 250]]]
      (fun _ => .error "context canceled") =
      .error (.networkError "context canceled") :=
  ⟨rfl, rfl, rfl⟩

/-- Claim C9 (amended): once the context is cancelled every attempt fails
at the transport level, but the loop does not exit early — it sleeps the
full wait after each failed attempt and keeps attempting until the
generator signals stop, making one attempt per generator entry plus one
and sleeping the sum of all waits; `Send` then surfaces the final failure
as a `NetworkError`. -/
theorem C9_cancelled_context_exhausts_backoff
    (opts : sendOptions) (req : Request) (backoff : List Nat) (i : Nat)
    (msg : String) (client : Nat → Except String Response)
    (hcancel : ∀ j, client j = .error msg) :
    (sendLoop client opts req backoff i).outcome = .error msg ∧
    (sendLoop client opts req backoff i).attempts = i + backoff.length + 1 ∧
    (sendLoop client opts req backoff i).slept = backoff.sum ∧
    (∀ (method rawurl : String) (options : List SendOption),
      Send method rawurl options client = .error (.networkError msg)) := by
  have hloop : ∀ (o : sendOptions) (b : List Nat) (rq : Request) (j : Nat),
      (sendLoop client o rq b j).outcome = .error msg ∧
      (sendLoop client o rq b j).attempts = j + b.length + 1 ∧
      (sendLoop client o rq b j).slept = b.sum := by
    intro o b
    induction b with
    | nil =>
      intro rq j
      unfold sendLoop
      have hf : attemptFails (client j) o = true := by
        rw [hcancel j]
        rfl
      rw [hf]
      exact ⟨hcancel j, rfl, rfl⟩
    | cons d rest ih =>
      intro rq j
      unfold sendLoop
      have hf : attemptFails (client j) o = true := by
        rw [hcancel j]
        rfl
      rw [hf]
      dsimp only
      have h := ih (consumeBody rq) (j + 1)
      refine ⟨h.1, ?_, ?_⟩
      · rw [h.2.1]
        simp [List.length_cons]
        omega
      · rw [h.2.2]
        simp [List.sum_cons]
        omega
  refine ⟨(hloop opts backoff req i).1, (hloop opts backoff req i).2.1,
    (hloop opts backoff req i).2.2, ?_⟩
  intro method rawurl options
  unfold Send SendFull sendFinish
  rw [(hloop _ _ _ _).1]

/-- Witness for C9 (amended): a concrete cancelled run exhausts a
two-entry generator and surfaces a network error. -/
theorem C9_cancelled_context_exhausts_backoff_witness :
    (sendLoop (fun _ => .error "context canceled") (defaultOptions "u")
      (newRequest "GET" (defaultOptions "u")) [250, 250] 0).attempts = 3 ∧
    Send "GET" "u" [] (fun _ => .error "context canceled") =
      .error (.networkError "context canceled") := by
  have h := C9_cancelled_context_exhausts_backoff (defaultOptions "u")
    (newRequest "GET" (defaultOptions "u")) [250, 250] 0 "context canceled"
    (fun _ => .error "context canceled") (fun j => rfl)
  exact ⟨h.2.1, h.2.2.2 "GET" "u" []⟩

/-- Claim C10: `IsRetryable` returns true only for an error that is (or
wraps) a `StatusError` whose status is in the fixed set
`{429, 502, 503, 504}`; it is false for every `NetworkError`; and yet the
retry loop itself does retry after a transport-level failure whenever the
generator still yields a wait. -/
theorem C10_isRetryable_only_retryable_status (e : GoError) :
    (IsRetryable e = true →
      ∃ se, asStatusError e = some se ∧ se.Status ∈ retryableCodes) ∧
    (∀ msg, IsRetryable (GoError.networkError msg) = false) ∧
    (∀ (client : Nat → Except String Response) (opts : sendOptions) (req : Request)
        (d : Nat) (rest : List Nat) (i : Nat) (msg : String),
      client i = .error msg →
      i + 2 ≤ (sendLoop client opts req (d :: rest) i).attempts) := by
  refine ⟨?_, fun msg => rfl, ?_⟩
  · intro hret
    unfold IsRetryable at hret
    cases hse : asStatusError e with
    | none => simp [hse] at hret
    | some se =>
      rw [hse] at hret
      exact ⟨se, rfl, List.elem_iff.mp hret⟩
  · intro client opts req d rest i msg hmsg
    unfold sendLoop
    have hf : attemptFails (client i) opts = true := by
      rw [hmsg]
      rfl
    rw [hf, if_pos rfl]
    have h := (sendLoop_attempts client opts rest (consumeBody req) (i + 1)).1
    show i + 2 ≤ (sendLoop client opts (consumeBody req) rest (i + 1)).attempts
    omega

/-- Witness for C10: a 503 `StatusError` is retryable, a network error is
not, and a transport failure with one wait left makes a second attempt
happen. -/
theorem C10_isRetryable_witness :
    (∃ se, asStatusError (GoError.statusError
        { Method := "GET", URL := "u", Status := 503, Header := [], ResponseDump := "" }) =
        some se ∧ se.Status ∈ retryableCodes) ∧
    IsRetryable (GoError.networkError "connection refused") = false ∧
    2 ≤ (sendLoop (fun _ => .error "connection refused") (defaultOptions "u")
      (newRequest "GET" (defaultOptions "u")) [250] 0).attempts := by
  have h := C10_isRetryable_only_retryable_status (GoError.statusError
    { Method := "GET", URL := "u", Status := 503, Header := [], ResponseDump := "" })
  exact ⟨h.1 rfl, h.2.1 "connection refused",
    h.2.2 (fun _ => .error "connection refused") (defaultOptions "u")
      (newRequest "GET" (defaultOptions "u")) 250 [] 0 "connection refused" rfl⟩

end Httputil

namespace Security

open Httputil

/-- The Go guard `authConfig.Username != "" && authConfig.Password != ""
&& strings.HasSuffix(addr, "amazonaws.com")`, as a proposition. -/
theorem basic_guard_iff (addr : String) (cfg : AuthConfig) :
    (cfg.Username != "" && cfg.Password != "" && hasSuffix addr "amazonaws.com") = true ↔
      (cfg.Username ≠ "" ∧ cfg.Password ≠ "" ∧ hasSuffix addr "amazonaws.com" = true) := by
  simp [Bool.and_eq_true, bne_iff_ne, and_assoc]

/-- Claim C4: given a successful probe, the factory selects Basic
authentication iff the username and password are both non-empty and the
registry address ends with the literal suffix `amazonaws.com`; in every
other case it selects the Bearer/token handler scoped to the repository
with actions `pull, push`, client identifier `"docker"`, and OAuth-style
token exchange disabled. -/
theorem C4_auth_scheme_selection (addr repo : String) (cfg : AuthConfig)
    (pingResult : Except String ChallengeManager) (cm : ChallengeManager)
    (hping : pingResult = .ok cm) :
    (BasicAuthTransport addr repo pingResult cfg =
        .ok { challenges := cm, handler := .basicHandler cfg } ↔
      (cfg.Username ≠ "" ∧ cfg.Password ≠ "" ∧ hasSuffix addr "amazonaws.com" = true)) ∧
    (¬(cfg.Username ≠ "" ∧ cfg.Password ≠ "" ∧ hasSuffix addr "amazonaws.com" = true) →
      BasicAuthTransport addr repo pingResult cfg =
        .ok { challenges := cm
              handler := .tokenHandler
                { Credentials := cfg
                  Scopes := [{ Repository := repo, Actions := ["pull", "push"] }]
                  ClientID := "docker"
                  ForceOAuth := false } }) := by
  subst hping
  unfold BasicAuthTransport
  dsimp only
  split
  case isTrue hc =>
    have hp := (basic_guard_iff addr cfg).mp hc
    exact ⟨⟨fun _ => hp, fun _ => rfl⟩, fun hnp => absurd hp hnp⟩
  case isFalse hc =>
    have hp : ¬(cfg.Username ≠ "" ∧ cfg.Password ≠ "" ∧
        hasSuffix addr "amazonaws.com" = true) := fun p =>
      hc ((basic_guard_iff addr cfg).mpr p)
    refine ⟨⟨fun heq => ?_, fun p => absurd p hp⟩, fun _ => rfl⟩
    simp only [Except.ok.injEq] at heq
    have hh := congrArg DecoratedTransport.handler heq
    simp at hh

/-- Witness for C4: an ECR-style address with full credentials selects
Basic; a non-AWS address with the same credentials selects the token
handler with the documented scope, client id and OAuth flag. -/
theorem C4_auth_scheme_selection_witness :
    BasicAuthTransport "123456789012.dkr.ecr.us-east-1.amazonaws.com" "team/app"
      (.ok { recorded := [] })
      { Username := "AWS", Password := "ecrtoken", IdentityToken := "" } =
      .ok { challenges := { recorded := [] }
            handler := .basicHandler
              { Username := "AWS", Password := "ecrtoken", IdentityToken := "" } } ∧
    BasicAuthTransport "registry.example.com" "team/app"
      (.ok { recorded := [] })
      { Username := "AWS", Password := "ecrtoken", IdentityToken := "" } =
      .ok { challenges := { recorded := [] }
            handler := .tokenHandler
              { Credentials := { Username := "AWS", Password := "ecrtoken",
                                 IdentityToken := "" }
                Scopes := [{ Repository := "team/app", Actions := ["pull", "push"] }]
                ClientID := "docker"
                ForceOAuth := false } } := by
  constructor
  · exact (C4_auth_scheme_selection "123456789012.dkr.ecr.us-east-1.amazonaws.com"
      "team/app" { Username := "AWS", Password := "ecrtoken", IdentityToken := "" }
      (.ok { recorded := [] }) { recorded := [] } rfl).1.mpr (by decide)
  · exact (C4_auth_scheme_selection "registry.example.com"
      "team/app" { Username := "AWS", Password := "ecrtoken", IdentityToken := "" }
      (.ok { recorded := [] }) { recorded := [] } rfl).2 (by decide)

/-- Claim C5: the probe configures accepted statuses `{200, 401}`;
given a probe response whose challenge parsing succeeds, `ping` succeeds
iff some advertised API-version value exactly matches
`{type: "registry", version: "2.0"}`; when no advertised value matches
(a missing header or only `registry/1.0` included) it fails with the
`"registry is not v2"` error and returns no challenge state. -/
theorem C5_ping_requires_v2 (parse : Response → Except String Unit)
    (resp : Response) (u : String) (hparse : parse resp = .ok ()) :
    ((∃ cm, ping parse (.ok resp) = .ok cm) ↔
      v2Version ∈ APIVersions resp registryVersionHeader) ∧
    (v2Version ∉ APIVersions resp registryVersionHeader →
      ping parse (.ok resp) = .error "registry is not v2") ∧
    (pingSendOptions.foldl applyOption (defaultOptions u)).acceptedCodes = [200, 401] := by
  have hfail : ∀ hmem : v2Version ∉ APIVersions resp registryVersionHeader,
      ping parse (.ok resp) = .error "registry is not v2" := by
    intro hmem
    unfold ping
    dsimp only
    rw [if_neg hmem]
  refine ⟨⟨?_, ?_⟩, hfail, rfl⟩
  · rintro ⟨cm, hcm⟩
    by_contra hmem
    rw [hfail hmem] at hcm
    exact Except.noConfusion hcm
  · intro hmem
    unfold ping AddResponse
    dsimp only
    rw [if_pos hmem, hparse]
    exact ⟨_, rfl⟩

/-- Witness for C5: a 401 probe response advertising `registry/2.0`
succeeds, and the probe's accepted codes are 200 and 401. -/
theorem C5_ping_requires_v2_witness :
    (∃ cm, ping (fun _ => .ok ())
      (.ok { statusCode := 401,
             header := [("Docker-Distribution-Api-Version", "registry/2.0")],
             reqMethod := "GET", reqURL := "https://example.com/v2/",
             body := { content := "" } }) = .ok cm) ∧
    (pingSendOptions.foldl applyOption (defaultOptions "example.com")).acceptedCodes =
      [200, 401] := by
  have h := C5_ping_requires_v2 (fun _ => .ok ())
    { statusCode := 401,
      header := [("Docker-Distribution-Api-Version", "registry/2.0")],
      reqMethod := "GET", reqURL := "https://example.com/v2/",
      body := { content := "" } }
    "example.com" rfl
  exact ⟨h.1.mpr (by decide), h.2.2⟩

end Security

end Makisu
